import Mathlib

/-!
Verification development for the `cosmico-webinar` repository.

The definitions below are a shallow embedding of the Python sources:

* `src/cosmico_webinar/commands/download.py` — the download pipeline
  (`DownloaderWorker.download_file`, `DownloaderWorker.run`, and the queue
  set-up in `cli`).  Machine integers do not overflow in the relevant code,
  so sizes and counters are `Nat`.  File contents are lists of byte values;
  the chunks yielded by `iter_content(chunk_size=8192)` are modelled as an
  arbitrary list of chunks (their sizes are chosen by the HTTP library).
  The global `_stop_event` is modelled as a sequence of observations
  `stop : Nat → Bool`: the n-th call to `_stop_event.is_set()` made by the
  worker reads `stop n`.  Exceptions raised by `raise_for_status()` are
  modelled by the `DlResult.httpError` result value; the `except Exception`
  branch of `DownloaderWorker.run` handles exactly that result.
* `src/cosmico_webinar/eventbrite.py` — pagination (`get_showmore`,
  `get_events`, `get_all_events`).  The remote server is a total function
  from request parameters to a page; the unbounded `while` loop is given
  fuel and returns `none` when the fuel runs out (divergence).
* `src/cosmico_webinar/streamyard.py` — `register_webinar`'s construction
  of the registration field values (a Python `dict` is an association list
  with insert-or-overwrite semantics, `dictInsert`).
-/

set_option linter.unusedVariables false

/-- File contents and chunk payloads: lists of byte values. -/
abbrev Bytes := List Nat

/-- An HTTP response as seen by `DownloaderWorker.download_file`:
the final status code, the optional `Content-Length` header (already
parsed to a number), and the sequence of body chunks yielded by
`iter_content`. -/
structure HttpResponse where
  status : Nat
  contentLength : Option Nat
  chunks : List Bytes
deriving DecidableEq

/-- `int(r.headers.get("Content-Length", 0))` (download.py line 98):
the remote size defaults to 0 when the header is absent. -/
def remote_file_size (r : HttpResponse) : Nat :=
  r.contentLength.getD 0

/-- `requests.Response.raise_for_status` raises `HTTPError` exactly for
status codes in [400, 600). -/
def raiseForStatus (status : Nat) : Bool :=
  decide (400 ≤ status ∧ status < 600)

/-- The skip condition of download.py line 101:
`local_file.exists() and local_file.stat().st_size == remote_file_size`. -/
def skipCheck (localFile : Option Bytes) (r : HttpResponse) : Bool :=
  match localFile with
  | some content => content.length == remote_file_size r
  | none => false

/-- How one call to `download_file` ended. -/
inductive DlResult where
  | skipped
  | httpError (status : Nat)
  | cancelled
  | completed
deriving DecidableEq

/-- Whether the result corresponds to a raised `HTTPError`
(the only exception source in the modelled code). -/
def DlResult.isError : DlResult → Bool
  | .httpError _ => true
  | _ => false

/-- Return value of the modelled `download_file`: the result, the state of
the local file afterwards (`none` = file does not exist), and the index of
the next unread `_stop_event` observation. -/
structure DlRet where
  result : DlResult
  fileAfter : Option Bytes
  nextPoll : Nat
deriving DecidableEq

/-- The chunk loop of download.py lines 111–116: before writing each chunk
the worker polls `_stop_event.is_set()`; if set it returns at once.
Returns the bytes written, whether the loop was cancelled, and the next
poll index. -/
def streamLoop (stop : Nat → Bool) : Nat → List Bytes → Bytes × Bool × Nat
  | p, [] => ([], false, p)
  | p, c :: rest =>
    if stop p then ([], true, p + 1)
    else
      let r := streamLoop stop (p + 1) rest
      (c ++ r.1, r.2.1, r.2.2)

/-- `DownloaderWorker.download_file` (download.py lines 82–116) on the
response `resp` with current local file `localFile`, reading `_stop_event`
observations from index `poll` on.  The skip check (line 101) runs before
`raise_for_status` (line 108); the file is opened with mode `"wb"`
(truncating) only after `raise_for_status` passed, so a skipped or failed
call leaves the local file untouched. -/
def download_file (resp : HttpResponse) (localFile : Option Bytes)
    (stop : Nat → Bool) (poll : Nat) : DlRet :=
  if skipCheck localFile resp then
    ⟨.skipped, localFile, poll⟩
  else if raiseForStatus resp.status then
    ⟨.httpError resp.status, localFile, poll⟩
  else
    let s := streamLoop stop poll resp.chunks
    ⟨if s.2.1 then .cancelled else .completed, some s.1, s.2.2⟩

/-- The `VideoEntry` TypedDict of download.py line 58. -/
structure VideoEntry where
  title : String
  url : String
  poster : String
deriving DecidableEq

/-- A queue item: a download job or the `_sentinel` marker. -/
inductive QItem where
  | job (entry : VideoEntry)
  | sentinel
deriving DecidableEq

/-- Recognise the sentinel. -/
def QItem.isSentinel : QItem → Bool
  | .sentinel => true
  | .job _ => false

/-- The local filesystem restricted to output paths: path ↦ contents. -/
abbrev FS := String → Option Bytes

/-- Point update of the filesystem. -/
def updateFS (fs : FS) (path : String) (content : Option Bytes) : FS :=
  fun p => if p = path then content else fs p

/-- The output path of a job (download.py lines 135–136):
`self.output / f"{slugify(entry['title'])}.mp4"`.  The `slugify` library
function is an external dependency and is passed as a parameter `slug`. -/
def targetPath (out : String) (slug : String → String) (title : String) : String :=
  out ++ "/" ++ slug title ++ ".mp4"

/-- Effect of one loop iteration of `DownloaderWorker.run` after the entry
has been dequeued (download.py lines 126–164): `running` is `is_running`
when the iteration ends, `advanced` says whether the `finally` block
advanced the overall progress counter, `outcome` is the job's download
result (`none` for the sentinel), `errorLogged` says whether the `except`
branch printed an error. -/
structure IterOut where
  running : Bool
  advanced : Bool
  outcome : Option DlResult
  tookSentinel : Bool
  errorLogged : Bool
  fs : FS
  nextPoll : Nat

/-- One pass of the body of `DownloaderWorker.run` on a dequeued entry.
A sentinel clears `is_running` and returns; the `finally` block then skips
the overall-progress advance.  A job is downloaded; an `HTTPError`
(`DlResult.httpError`) is caught by `except Exception` (line 148) which
logs it and clears `is_running`, so the `finally` block does not advance.
Every other way out of `download_file` — success, size-match skip, or
mid-download cancellation — leaves `is_running` true, so the `finally`
block advances the overall counter by 1. -/
def processEntry (net : String → HttpResponse) (slug : String → String)
    (out : String) (stop : Nat → Bool) (poll : Nat) (fs : FS) :
    QItem → IterOut
  | .sentinel => ⟨false, false, none, true, false, fs, poll⟩
  | .job e =>
    let path := targetPath out slug e.title
    let d := download_file (net e.url) (fs path) stop poll
    match d.result with
    | .httpError s => ⟨false, false, some (.httpError s), false, true, fs, d.nextPoll⟩
    | .skipped => ⟨true, true, some .skipped, false, false, fs, d.nextPoll⟩
    | .cancelled => ⟨true, true, some .cancelled, false, false, updateFS fs path d.fileAfter, d.nextPoll⟩
    | .completed => ⟨true, true, some .completed, false, false, updateFS fs path d.fileAfter, d.nextPoll⟩

/-- Aggregate outcome of a worker's whole `run` loop over the stream of
queue items it dequeues. -/
structure WorkerRun where
  finalRunning : Bool
  itemsTaken : Nat
  sentinelsConsumed : Nat
  advances : Nat
  errorsLogged : Nat
  outcomes : List DlResult
  fs : FS
  nextPoll : Nat

/-- `DownloaderWorker.run` (download.py lines 118–164).  `entries` is the
stream of queue items this worker would dequeue.  Each iteration first
polls `_stop_event` (line 122) — if set, the worker clears `is_running`
and returns without dequeuing (this path bypasses the `finally` block).
Otherwise it dequeues and runs `processEntry`; the loop continues while
`is_running` holds.  An empty stream with the flag still true means the
worker would block in `queue.get()`; `finalRunning = true` marks that the
worker never terminated. -/
def runWorker (net : String → HttpResponse) (slug : String → String)
    (out : String) (stop : Nat → Bool) :
    Nat → FS → List QItem → WorkerRun
  | poll, fs, [] =>
    if stop poll then ⟨false, 0, 0, 0, 0, [], fs, poll + 1⟩
    else ⟨true, 0, 0, 0, 0, [], fs, poll + 1⟩
  | poll, fs, e :: rest =>
    if stop poll then ⟨false, 0, 0, 0, 0, [], fs, poll + 1⟩
    else
      let it := processEntry net slug out stop (poll + 1) fs e
      if it.running then
        let r := runWorker net slug out stop it.nextPoll it.fs rest
        ⟨r.finalRunning, r.itemsTaken + 1,
         r.sentinelsConsumed + (if it.tookSentinel then 1 else 0),
         r.advances + (if it.advanced then 1 else 0),
         r.errorsLogged + (if it.errorLogged then 1 else 0),
         (match it.outcome with | some o => o :: r.outcomes | none => r.outcomes),
         r.fs, r.nextPoll⟩
      else
        ⟨false, 1,
         (if it.tookSentinel then 1 else 0),
         (if it.advanced then 1 else 0),
         (if it.errorLogged then 1 else 0),
         (match it.outcome with | some o => [o] | none => []),
         it.fs, it.nextPoll⟩

/-- The queue contents produced by `cli` (download.py lines 326–334):
all jobs in order, then one `_sentinel` per worker (`threads` many). -/
def buildQueue (jobs : List VideoEntry) (workerCount : Nat) : List QItem :=
  jobs.map QItem.job ++ List.replicate workerCount QItem.sentinel

/-- The output directory used by `cli` (download.py lines 322–323):
`pathlib.Path.cwd() / "output"`.  The `--output` option value is a
parameter of `cli` (line 168/177) but is never consulted. -/
def cliOutputDir (output : Option String) (cwd : String) : String :=
  cwd ++ "/output"

/-- Event-set selector of `EventBrite.get_events` (eventbrite.py line 65):
the `type` request parameter is `"past"` or `"future"`. -/
inductive EType where
  | past
  | future
deriving DecidableEq

/-- One page of the `showmore` endpoint: `data["data"]["events"]` and
`data["data"]["has_next_page"]` (eventbrite.py line 53). -/
structure ShowmorePage (α : Type) where
  events : List α
  hasNextPage : Bool

/-- The remote server behind `get_showmore`, as a total function of the
request parameters `(org_id, page, pagesize, type)`. -/
abbrev Server (α : Type) := String → Nat → Nat → EType → ShowmorePage α

/-- `EventBrite.get_showmore` (eventbrite.py lines 36–53): returns the
pair `(events, has_next_page)` of the requested page. -/
def get_showmore (srv : Server α) (org : String) (page pagesize : Nat)
    (t : EType) : List α × Bool :=
  ((srv org page pagesize t).events, (srv org page pagesize t).hasNextPage)

/-- The `while has_next_page` loop of `EventBrite.get_events`
(eventbrite.py lines 69–74), starting at `page`, with fuel bounding the
number of requests; `none` models the loop never terminating. -/
def getEventsFrom (srv : Server α) (org : String) (t : EType)
    (pagesize : Nat) : Nat → Nat → Option (List α)
  | 0, _ => none
  | fuel + 1, page =>
    let r := get_showmore srv org page pagesize t
    if r.2 then
      match getEventsFrom srv org t pagesize fuel (page + 1) with
      | some rest => some (r.1 ++ rest)
      | none => none
    else some r.1

/-- `EventBrite.get_events` (eventbrite.py lines 65–76): accumulate pages
starting from page 1. -/
def get_events (srv : Server α) (org : String) (t : EType)
    (pagesize fuel : Nat) : Option (List α) :=
  getEventsFrom srv org t pagesize fuel 1

/-- `EventBrite.get_past_events` (eventbrite.py line 78). -/
def get_past_events (srv : Server α) (org : String) (pagesize fuel : Nat) :
    Option (List α) :=
  get_events srv org .past pagesize fuel

/-- `EventBrite.get_future_events` (eventbrite.py line 81). -/
def get_future_events (srv : Server α) (org : String) (pagesize fuel : Nat) :
    Option (List α) :=
  get_events srv org .future pagesize fuel

/-- `EventBrite.get_all_events` (eventbrite.py lines 84–88): the future
events followed by the past events. -/
def get_all_events (srv : Server α) (org : String) (pagesize fuel : Nat) :
    Option (List α) :=
  match get_future_events srv org pagesize fuel,
        get_past_events srv org pagesize fuel with
  | some f, some p => some (f ++ p)
  | _, _ => none

/-- The concatenation of the events of pages `1..n` of one event set, in
page order — the declarative description used to state claim C9. -/
def pagesConcat (srv : Server α) (org : String) (t : EType)
    (pagesize n : Nat) : List α :=
  ((List.range n).map (fun i => (srv org (i + 1) pagesize t).events)).flatten

/-- `(srv …).has_next_page` is true on pages `1..N-1` and false on `N`:
page `N` is where the `while` loop of `get_events` stops. -/
def isLastPage (srv : Server α) (org : String) (t : EType)
    (pagesize N : Nat) : Prop :=
  (srv org N pagesize t).hasNextPage = false ∧
  ∀ k, 1 ≤ k → k < N → (srv org k pagesize t).hasNextPage = true

/-- One registration field of `webinar_data["registrationFieldDefinitions"][0]["fields"]["data"]`
(streamyard.py line 49). -/
structure RegField where
  id : String
  type : String
  isRequired : Bool
deriving DecidableEq

/-- One entry of `webinar_data["registrationFieldDefinitions"]`. -/
structure RegFieldDefinition where
  id : String
  fields : List RegField
deriving DecidableEq

/-- The part of the webinar info record that `register_webinar` reads. -/
structure WebinarData where
  registrationFieldDefinitions : List RegFieldDefinition
deriving DecidableEq

/-- A Python `dict[str, str]` as an ordered association list. -/
abbrev Dict := List (String × String)

/-- Python dict assignment `d[k] = v`: overwrite in place when the key is
present, append otherwise. -/
def dictInsert (d : Dict) (k v : String) : Dict :=
  if d.any (fun p => decide (p.1 = k)) then
    d.map (fun p => if p.1 = k then (k, v) else p)
  else d ++ [(k, v)]

/-- The body of the `for field in fields_data` loop of
`StreamYard.register_webinar` (streamyard.py lines 51–61). -/
def fieldsValuesStep (email firstName lastName : String) (d : Dict)
    (f : RegField) : Dict :=
  if f.isRequired then
    if f.type = "email" then dictInsert d f.id email
    else if f.type = "firstName" then dictInsert d f.id firstName
    else if f.type = "lastName" then dictInsert d f.id lastName
    else d
  else d

/-- The `fields_values` dict built by `register_webinar`
(streamyard.py lines 50–61). -/
def buildFieldsValues (email firstName lastName : String)
    (fields : List RegField) : Dict :=
  fields.foldl (fieldsValuesStep email firstName lastName) []

/-- The JSON payload posted by `register_webinar`
(streamyard.py lines 64–73). -/
structure RegistrationData where
  email : String
  firstName : String
  lastName : String
  definitionId : String
  values : Dict
  timeZone : String
deriving DecidableEq

/-- `StreamYard.register_webinar` (streamyard.py lines 45–76) restricted
to the registration payload it constructs; indexing
`registrationFieldDefinitions[0]` raises `IndexError` on an empty list,
modelled by `none`. -/
def register_webinar (wd : WebinarData) (email firstName lastName : String) :
    Option RegistrationData :=
  match wd.registrationFieldDefinitions with
  | [] => none
  | d0 :: _ =>
    some ⟨email, firstName, lastName, d0.id,
          buildFieldsValues email firstName lastName d0.fields, "Europe/Rome"⟩

/-- The declarative field mapping used to state claim C10: a required
field of type `email` / `firstName` / `lastName` contributes its id paired
with the corresponding provided value; any other field contributes
nothing. -/
def requiredFieldValue (email firstName lastName : String) (f : RegField) :
    Option (String × String) :=
  if f.isRequired then
    if f.type = "email" then some (f.id, email)
    else if f.type = "firstName" then some (f.id, firstName)
    else if f.type = "lastName" then some (f.id, lastName)
    else none
  else none

/-- When no stop observation fires, the chunk loop writes every chunk and
consumes one observation per chunk. -/
theorem streamLoop_no_stop (stop : Nat → Bool) (h : ∀ m, stop m = false) :
    ∀ (chunks : List Bytes) (p : Nat),
    streamLoop stop p chunks = (chunks.flatten, false, p + chunks.length)
  | [], p => by simp [streamLoop]
  | c :: rest, p => by
    simp [streamLoop, h p, streamLoop_no_stop stop h rest (p + 1)]
    omega

/-- A chunk loop that was not cancelled wrote the whole body. -/
theorem streamLoop_flatten_of_not_cancelled (stop : Nat → Bool) :
    ∀ (chunks : List Bytes) (p : Nat),
    (streamLoop stop p chunks).2.1 = false →
    (streamLoop stop p chunks).1 = chunks.flatten
  | [], p => by simp [streamLoop]
  | c :: rest, p => by
    intro h
    by_cases hs : stop p
    · simp [streamLoop, hs] at h
    · simp only [streamLoop, hs, if_neg, Bool.false_eq_true, ite_false] at h ⊢
      simp [streamLoop_flatten_of_not_cancelled stop rest (p + 1) h]

/-- If the k-th observation (and no earlier one) reports the stop event
set, the chunk loop writes exactly the first k chunks and reports
cancellation. -/
theorem streamLoop_firstStop (stop : Nat → Bool) :
    ∀ (chunks : List Bytes) (p k : Nat),
    k < chunks.length → stop (p + k) = true →
    (∀ m, m < k → stop (p + m) = false) →
    streamLoop stop p chunks = (((chunks.take k).flatten), true, p + k + 1)
  | [], p, k => by simp
  | c :: rest, p, k => by
    intro hk hset hbefore
    match k with
    | 0 =>
      have h0 : stop p = true := by simpa using hset
      simp [streamLoop, h0]
    | k + 1 =>
      have h0 : stop p = false := by simpa using hbefore 0 (Nat.succ_pos k)
      have hset' : stop (p + 1 + k) = true := by
        have : p + 1 + k = p + (k + 1) := by omega
        rw [this]; exact hset
      have hbefore' : ∀ m, m < k → stop (p + 1 + m) = false := by
        intro m hm
        have : p + 1 + m = p + (m + 1) := by omega
        rw [this]; exact hbefore (m + 1) (by omega)
      have hk' : k < rest.length := by simpa using Nat.lt_of_succ_lt_succ hk
      simp [streamLoop, h0, streamLoop_firstStop stop rest (p + 1) k hk' hset' hbefore']
      omega

/-- The size-match skip of download.py line 101: when the local file
exists with exactly the remote size, `download_file` returns at once,
reports the file as already downloaded, and touches neither the file nor
the stop event. -/
theorem download_file_skip (resp : HttpResponse) (c : Bytes)
    (stop : Nat → Bool) (p : Nat) (hc : c.length = remote_file_size resp) :
    download_file resp (some c) stop p = ⟨.skipped, some c, p⟩ := by
  simp [download_file, skipCheck, hc]

/-- Only `raise_for_status` produces the error result. -/
theorem download_file_error_status (resp : HttpResponse) (l : Option Bytes)
    (stop : Nat → Bool) (p : Nat)
    (h : (download_file resp l stop p).result.isError = true) :
    raiseForStatus resp.status = true := by
  by_cases h1 : skipCheck l resp
  · simp [download_file, h1, DlResult.isError] at h
  · by_cases h2 : raiseForStatus resp.status
    · exact h2
    · simp only [download_file, h1, h2, Bool.false_eq_true, ite_false] at h
      split at h <;> simp [DlResult.isError] at h

/-- A completed download wrote exactly the whole response body. -/
theorem download_file_completed_fileAfter (resp : HttpResponse)
    (l : Option Bytes) (stop : Nat → Bool) (p : Nat)
    (h : (download_file resp l stop p).result = .completed) :
    (download_file resp l stop p).fileAfter = some resp.chunks.flatten := by
  by_cases h1 : skipCheck l resp
  · simp [download_file, h1] at h
  · by_cases h2 : raiseForStatus resp.status
    · simp [download_file, h1, h2] at h
    · simp only [download_file, h1, h2, Bool.false_eq_true, ite_false] at h ⊢
      by_cases hcanc : (streamLoop stop p resp.chunks).2.1
      · simp [hcanc] at h
      · simp only [Bool.not_eq_true] at hcanc
        simp [hcanc,
          streamLoop_flatten_of_not_cancelled stop resp.chunks p hcanc]

/-- A job whose response status does not make `raise_for_status` raise
leaves `is_running` true, so the worker loops on; a job never consumes a
sentinel. -/
theorem processEntry_job_ok (net : String → HttpResponse)
    (slug : String → String) (out : String) (stop : Nat → Bool) (poll : Nat)
    (fs : FS) (v : VideoEntry)
    (h : raiseForStatus (net v.url).status = false) :
    (processEntry net slug out stop poll fs (QItem.job v)).running = true ∧
    (processEntry net slug out stop poll fs (QItem.job v)).tookSentinel = false := by
  rcases hr : (download_file (net v.url) (fs (targetPath out slug v.title)) stop poll).result
    with _ | s | _ | _
  · simp [processEntry, hr]
  · exfalso
    have herr := download_file_error_status (net v.url)
      (fs (targetPath out slug v.title)) stop poll (by rw [hr]; rfl)
    rw [herr] at h
    exact Bool.noConfusion h
  · simp [processEntry, hr]
  · simp [processEntry, hr]

/-- Claim C1 — counterexample.  A worker that dequeues a job whose
download request answers HTTP 404 terminates at once with its running
flag cleared, taking only that one item from the queue: the next job and
the sentinel are never dequeued, contradicting the claim that an
HTTP-status failure leaves the running flag true so the worker loops
again. -/
theorem claim_C1_counterexample :
    (runWorker (fun _ => ⟨404, some 5, []⟩) (fun s => s) "/o" (fun _ => false) 0
      (fun _ => none)
      [QItem.job ⟨"a", "u", "p"⟩, QItem.job ⟨"b", "v", "q"⟩, QItem.sentinel]).finalRunning
      = false ∧
    (runWorker (fun _ => ⟨404, some 5, []⟩) (fun s => s) "/o" (fun _ => false) 0
      (fun _ => none)
      [QItem.job ⟨"a", "u", "p"⟩, QItem.job ⟨"b", "v", "q"⟩, QItem.sentinel]).itemsTaken
      = 1 := by
  constructor <;> rfl

/-- Claim C1 — amended.  A download request answering a raising HTTP
status (4xx/5xx) marks the job failed and logs exactly one error, the
worker does not crash (its `run` returns normally), but the `except
Exception` handler clears the worker's running flag: the worker stops
after this single item, dequeues nothing further, and the job does not
advance the overall counter. -/
theorem claim_C1 (net : String → HttpResponse) (slug : String → String)
    (out : String) (stop : Nat → Bool) (poll : Nat) (fs : FS)
    (e : VideoEntry) (rest : List QItem)
    (hskip : skipCheck (fs (targetPath out slug e.title)) (net e.url) = false)
    (hbad : raiseForStatus (net e.url).status = true)
    (hstop : stop poll = false) :
    runWorker net slug out stop poll fs (QItem.job e :: rest) =
      ⟨false, 1, 0, 0, 1, [.httpError (net e.url).status], fs, poll + 1⟩ := by
  simp [runWorker, hstop, processEntry, download_file, hskip, hbad]

/-- Claim C1 — witness: the amended theorem at a concrete 404 job. -/
theorem claim_C1_witness :
    runWorker (fun _ => ⟨404, some 5, []⟩) (fun s => s) "/o" (fun _ => false) 0
      (fun _ => none) [QItem.job ⟨"a", "u", "p"⟩, QItem.sentinel] =
      ⟨false, 1, 0, 0, 1, [.httpError 404], (fun _ => none), 0 + 1⟩ :=
  claim_C1 (fun _ => ⟨404, some 5, []⟩) (fun s => s) "/o" (fun _ => false) 0
    (fun _ => none) ⟨"a", "u", "p"⟩ [QItem.sentinel] (by rfl) (by decide) (by rfl)

/-- Claim C3 — counterexample.  A failing job does not advance the
overall progress counter: with one HTTP-500 job the worker's run performs
zero advances, contradicting the claim that a failure still advances the
counter by 1. -/
theorem claim_C3_counterexample :
    (runWorker (fun _ => ⟨500, some 9, []⟩) (fun s => s) "/d" (fun _ => false) 0
      (fun _ => none) [QItem.job ⟨"c", "w", "r"⟩, QItem.sentinel]).advances = 0 ∧
    (runWorker (fun _ => ⟨500, some 9, []⟩) (fun s => s) "/d" (fun _ => false) 0
      (fun _ => none) [QItem.job ⟨"c", "w", "r"⟩, QItem.sentinel]).outcomes
      = [.httpError 500] := by
  constructor <;> rfl

/-- Claim C3 — amended.  A job that fails with a raising HTTP status does
not advance the overall progress counter: the `except Exception` handler
clears `is_running` before the `finally` block checks it, so the advance
is skipped and the worker stops. -/
theorem claim_C3 (net : String → HttpResponse) (slug : String → String)
    (out : String) (stop : Nat → Bool) (poll : Nat) (fs : FS)
    (e : VideoEntry) (rest : List QItem)
    (hskip : skipCheck (fs (targetPath out slug e.title)) (net e.url) = false)
    (hbad : raiseForStatus (net e.url).status = true)
    (hstop : stop poll = false) :
    (runWorker net slug out stop poll fs (QItem.job e :: rest)).advances = 0 ∧
    (runWorker net slug out stop poll fs (QItem.job e :: rest)).finalRunning = false := by
  constructor <;> simp [runWorker, hstop, processEntry, download_file, hskip, hbad]

/-- Claim C3 — witness: the amended theorem at a concrete 500 job. -/
theorem claim_C3_witness :
    (runWorker (fun _ => ⟨500, some 9, []⟩) (fun s => s) "/d" (fun _ => false) 0
      (fun _ => none) [QItem.job ⟨"c", "w", "r"⟩]).advances = 0 ∧
    (runWorker (fun _ => ⟨500, some 9, []⟩) (fun s => s) "/d" (fun _ => false) 0
      (fun _ => none) [QItem.job ⟨"c", "w", "r"⟩]).finalRunning = false :=
  claim_C3 (fun _ => ⟨500, some 9, []⟩) (fun s => s) "/d" (fun _ => false) 0
    (fun _ => none) ⟨"c", "w", "r"⟩ [] (by rfl) (by decide) (by rfl)

/-- Claim C4 — confirmed.  If a local file exists whose size equals the
remote content length (`Content-Length`, defaulting to 0 when absent),
`download_file` aborts at once with the "already downloaded" skip result,
leaving the file bytes untouched; consequently, for a well-formed
response (whose `Content-Length` equals its body length), a download that
ran to completion leaves a file that a second identical run skips without
writing any byte. -/
theorem claim_C4 (resp : HttpResponse) (c : Bytes) (l : Option Bytes)
    (stop stop' : Nat → Bool) (p p' : Nat)
    (hc : c.length = remote_file_size resp)
    (hhonest : remote_file_size resp = resp.chunks.flatten.length)
    (hcomp : (download_file resp l stop p).result = .completed) :
    download_file resp (some c) stop p = ⟨.skipped, some c, p⟩ ∧
    (download_file resp l stop p).fileAfter = some resp.chunks.flatten ∧
    download_file resp (download_file resp l stop p).fileAfter stop' p' =
      ⟨.skipped, some resp.chunks.flatten, p'⟩ := by
  refine ⟨download_file_skip resp c stop p hc,
    download_file_completed_fileAfter resp l stop p hcomp, ?_⟩
  rw [download_file_completed_fileAfter resp l stop p hcomp]
  exact download_file_skip resp resp.chunks.flatten stop' p' hhonest.symm

/-- Claim C4 — witness: a concrete completed download followed by an
identical rerun that skips. -/
theorem claim_C4_witness :
    download_file ⟨200, some 1, [[5]]⟩ (some [9]) (fun _ => false) 0 =
      ⟨.skipped, some [9], 0⟩ ∧
    (download_file ⟨200, some 1, [[5]]⟩ none (fun _ => false) 0).fileAfter =
      some (([[5]] : List Bytes).flatten) ∧
    download_file ⟨200, some 1, [[5]]⟩
      (download_file ⟨200, some 1, [[5]]⟩ none (fun _ => false) 0).fileAfter
      (fun _ => false) 0 = ⟨.skipped, some (([[5]] : List Bytes).flatten), 0⟩ :=
  claim_C4 ⟨200, some 1, [[5]]⟩ [9] none (fun _ => false) (fun _ => false) 0 0
    (by decide) (by decide) (by decide)

/-- Claim C6 — confirmed.  During the chunk loop the stop event is polled
before each write; if the first set observation is the k-th one (with at
least one chunk still to write), `download_file` returns the cancelled
result without raising, having written exactly the first k chunks: the
partially written file is left as is and no further chunk is written. -/
theorem claim_C6 (resp : HttpResponse) (l : Option Bytes) (stop : Nat → Bool)
    (p k : Nat)
    (hskip : skipCheck l resp = false)
    (hst : raiseForStatus resp.status = false)
    (hk : k < resp.chunks.length)
    (hset : stop (p + k) = true)
    (hbefore : ∀ m, m < k → stop (p + m) = false) :
    download_file resp l stop p =
      ⟨.cancelled, some ((resp.chunks.take k).flatten), p + k + 1⟩ := by
  simp [download_file, hskip, hst,
    streamLoop_firstStop stop resp.chunks p k hk hset hbefore]

/-- Claim C6 — witness: a two-chunk body cancelled after the first chunk
leaves exactly that chunk on disk. -/
theorem claim_C6_witness :
    download_file ⟨200, some 4, [[1, 2], [3, 4]]⟩ none (fun i => decide (1 ≤ i)) 0 =
      ⟨.cancelled, some ((([[1, 2], [3, 4]] : List Bytes).take 1).flatten), 0 + 1 + 1⟩ :=
  claim_C6 ⟨200, some 4, [[1, 2], [3, 4]]⟩ none (fun i => decide (1 ≤ i)) 0 1
    (by rfl) (by decide) (by decide) (by decide) (by decide)

/-- Claim C7 — confirmed.  The size-match skip check (line 101) runs
before `raise_for_status` (line 108): a response with a raising non-2xx
status whose content length equals the existing local file's size is
reported as already downloaded (a skip, with no error logged), the job
advances the overall counter, and the worker's running flag stays true so
it proceeds to the next item. -/
theorem claim_C7 (net : String → HttpResponse) (slug : String → String)
    (out : String) (stop : Nat → Bool) (poll : Nat) (fs : FS)
    (e : VideoEntry) (c : Bytes)
    (hfs : fs (targetPath out slug e.title) = some c)
    (hlen : c.length = remote_file_size (net e.url))
    (hbad : raiseForStatus (net e.url).status = true) :
    processEntry net slug out stop poll fs (QItem.job e) =
      ⟨true, true, some .skipped, false, false, fs, poll⟩ := by
  simp [processEntry, hfs, download_file_skip (net e.url) c stop poll hlen]

/-- Claim C7 — witness: a 404 response with matching content length on an
existing file is processed as a skip and the worker keeps running. -/
theorem claim_C7_witness :
    processEntry (fun _ => ⟨404, some 2, []⟩) (fun s => s) "/o"
      (fun _ => false) 0 (fun _ => some [7, 7]) (QItem.job ⟨"t", "u", "p"⟩) =
      ⟨true, true, some .skipped, false, false, (fun _ => some [7, 7]), 0⟩ :=
  claim_C7 (fun _ => ⟨404, some 2, []⟩) (fun s => s) "/o" (fun _ => false) 0
    (fun _ => some [7, 7]) ⟨"t", "u", "p"⟩ [7, 7] (by rfl) (by decide) (by decide)

/-- Claim C8 — confirmed.  The value of the `--output` option is never
consulted: the download phase targets `<cwd>/output` regardless, a whole
worker run is unchanged when the option changes, and every job's file
lands at `<cwd>/output/<slug>.mp4`. -/
theorem claim_C8 (o1 o2 : Option String) (cwd : String)
    (net : String → HttpResponse) (slug : String → String) (stop : Nat → Bool)
    (poll : Nat) (fs : FS) (entries : List QItem) (title : String) :
    cliOutputDir o1 cwd = cliOutputDir o2 cwd ∧
    runWorker net slug (cliOutputDir o1 cwd) stop poll fs entries =
      runWorker net slug (cliOutputDir o2 cwd) stop poll fs entries ∧
    targetPath (cliOutputDir o1 cwd) slug title =
      cwd ++ "/output" ++ "/" ++ slug title ++ ".mp4" :=
  ⟨rfl, rfl, rfl⟩

/-- The `finally` block advances the overall counter exactly when the
dequeued entry was a job whose processing raised no exception. -/
theorem processEntry_advanced_eq (net : String → HttpResponse)
    (slug : String → String) (out : String) (stop : Nat → Bool) (poll : Nat)
    (fs : FS) (e : QItem) :
    (processEntry net slug out stop poll fs e).advanced =
      (match (processEntry net slug out stop poll fs e).outcome with
       | some o => !o.isError
       | none => false) := by
  cases e with
  | sentinel => rfl
  | job v =>
    rcases hr : (download_file (net v.url) (fs (targetPath out slug v.title)) stop poll).result
      with _ | s | _ | _ <;> simp [processEntry, hr, DlResult.isError]

/-- Claim C2 — counterexample.  A job whose transfer is aborted
mid-download by the stop event still advances the overall counter: the
early return of `download_file` is a normal return, `is_running` is still
true in the `finally` block, and the advance happens — contradicting the
claim that mid-download cancellation does not advance the counter. -/
theorem claim_C2_counterexample :
    (runWorker (fun _ => ⟨200, some 4, [[1, 2], [3, 4]]⟩) (fun s => s) "/o"
      (fun i => decide (2 ≤ i)) 0 (fun _ => none)
      [QItem.job ⟨"a", "u", "p"⟩, QItem.sentinel]).outcomes = [.cancelled] ∧
    (runWorker (fun _ => ⟨200, some 4, [[1, 2], [3, 4]]⟩) (fun s => s) "/o"
      (fun i => decide (2 ≤ i)) 0 (fun _ => none)
      [QItem.job ⟨"a", "u", "p"⟩, QItem.sentinel]).advances = 1 := by
  constructor <;> rfl

/-- Claim C2 — amended.  Over any worker run, the overall counter is
advanced exactly once per processed job whose processing raised no
exception: success, size-match skip, and mid-download cancellation all
advance the counter; only a job that raised (HTTP error) and the sentinel
do not. -/
theorem claim_C2 (net : String → HttpResponse) (slug : String → String)
    (out : String) (stop : Nat → Bool) :
    ∀ (entries : List QItem) (poll : Nat) (fs : FS),
    (runWorker net slug out stop poll fs entries).advances =
      ((runWorker net slug out stop poll fs entries).outcomes.filter
        (fun o => !o.isError)).length := by
  intro entries
  induction entries with
  | nil =>
    intro poll fs
    by_cases h : stop poll <;> simp [runWorker, h]
  | cons e rest ih =>
    intro poll fs
    by_cases h : stop poll
    · simp [runWorker, h]
    · have hadv := processEntry_advanced_eq net slug out stop (poll + 1) fs e
      cases hrun : (processEntry net slug out stop (poll + 1) fs e).running
      · cases hout : (processEntry net slug out stop (poll + 1) fs e).outcome with
        | none => simp [runWorker, h, hrun, hout, hout ▸ hadv]
        | some o =>
          rw [hout] at hadv
          cases ho : o.isError <;>
            simp [runWorker, h, hrun, hout, hadv, ho, List.filter]
      · cases hout : (processEntry net slug out stop (poll + 1) fs e).outcome with
        | none => simp [runWorker, h, hrun, hout, hout ▸ hadv, ih]
        | some o =>
          rw [hout] at hadv
          cases ho : o.isError <;>
            simp [runWorker, h, hrun, hout, hadv, ho, List.filter, ih]

/-- The sentinels enqueued by `cli` number exactly one per worker. -/
theorem buildQueue_sentinels (jobs : List VideoEntry) (W : Nat) :
    (buildQueue jobs W).countP QItem.isSentinel = W := by
  have h1 : (jobs.map QItem.job).countP QItem.isSentinel = 0 := by
    induction jobs with
    | nil => rfl
    | cons v vs ih => simp [List.countP_cons, ih, QItem.isSentinel]
  have h2 : (List.replicate W QItem.sentinel).countP QItem.isSentinel = W := by
    induction W with
    | zero => rfl
    | succ n ih => simp [List.replicate, List.countP_cons, ih, QItem.isSentinel]
  simp [buildQueue, List.countP_append, h1, h2]

/-- With the stop event never set and no job raising, a worker consumes
its whole stream of jobs and terminates exactly at the first sentinel,
having consumed precisely one sentinel. -/
theorem runWorker_drains_to_sentinel (net : String → HttpResponse)
    (slug : String → String) (out : String) (stop : Nat → Bool)
    (hstop : ∀ i, stop i = false) :
    ∀ (js : List VideoEntry),
    (∀ v ∈ js, raiseForStatus (net v.url).status = false) →
    ∀ (poll : Nat) (fs : FS) (rest : List QItem),
    (runWorker net slug out stop poll fs
      (js.map QItem.job ++ QItem.sentinel :: rest)).sentinelsConsumed = 1 ∧
    (runWorker net slug out stop poll fs
      (js.map QItem.job ++ QItem.sentinel :: rest)).itemsTaken = js.length + 1 ∧
    (runWorker net slug out stop poll fs
      (js.map QItem.job ++ QItem.sentinel :: rest)).finalRunning = false := by
  intro js
  induction js with
  | nil =>
    intro _ poll fs rest
    simp [runWorker, hstop poll, processEntry]
  | cons v js ih =>
    intro hok poll fs rest
    have hnet := hok v (List.mem_cons_self v js)
    obtain ⟨hr, hs⟩ := processEntry_job_ok net slug out stop (poll + 1) fs v hnet
    have ihx := ih (fun w hw => hok w (List.mem_cons_of_mem v hw))
      (processEntry net slug out stop (poll + 1) fs (QItem.job v)).nextPoll
      (processEntry net slug out stop (poll + 1) fs (QItem.job v)).fs rest
    simp [runWorker, hstop poll, hr, hs, ihx.1, ihx.2.1, ihx.2.2]

/-- Claim C5 — counterexample.  With the stop event never set (no
cancellation) a worker whose first job answers HTTP 404 terminates
without consuming any sentinel — contradicting the claim that, absent
cancellation, every worker terminates exactly when it dequeues its first
sentinel, having consumed precisely one sentinel. -/
theorem claim_C5_counterexample :
    (runWorker (fun _ => ⟨404, some 3, []⟩) (fun s => s) "/s" (fun _ => false) 0
      (fun _ => none) [QItem.job ⟨"e", "x", "y"⟩, QItem.sentinel]).finalRunning
      = false ∧
    (runWorker (fun _ => ⟨404, some 3, []⟩) (fun s => s) "/s" (fun _ => false) 0
      (fun _ => none) [QItem.job ⟨"e", "x", "y"⟩, QItem.sentinel]).sentinelsConsumed
      = 0 := by
  constructor <;> rfl

/-- Claim C5 — amended.  The coordinator enqueues exactly W sentinels,
all after the jobs; absent cancellation, a worker none of whose jobs
raises an HTTP error terminates exactly when it dequeues its first
sentinel, having consumed precisely one sentinel (a worker whose job
raises terminates early without consuming a sentinel). -/
theorem claim_C5 (net : String → HttpResponse) (slug : String → String)
    (out : String) (stop : Nat → Bool) (jobs : List VideoEntry) (W : Nat)
    (js : List VideoEntry) (rest : List QItem) (poll : Nat) (fs : FS)
    (hstop : ∀ i, stop i = false)
    (hok : ∀ v ∈ js, raiseForStatus (net v.url).status = false) :
    (buildQueue jobs W).countP QItem.isSentinel = W ∧
    (runWorker net slug out stop poll fs
      (js.map QItem.job ++ QItem.sentinel :: rest)).sentinelsConsumed = 1 ∧
    (runWorker net slug out stop poll fs
      (js.map QItem.job ++ QItem.sentinel :: rest)).itemsTaken = js.length + 1 ∧
    (runWorker net slug out stop poll fs
      (js.map QItem.job ++ QItem.sentinel :: rest)).finalRunning = false :=
  ⟨buildQueue_sentinels jobs W,
   runWorker_drains_to_sentinel net slug out stop hstop js hok poll fs rest⟩

/-- Claim C5 — witness: one worker, one succeeding job, one sentinel. -/
theorem claim_C5_witness :
    (buildQueue [⟨"a", "u", "p"⟩] 1).countP QItem.isSentinel = 1 ∧
    (runWorker (fun _ => ⟨200, some 0, []⟩) (fun s => s) "/w" (fun _ => false) 0
      (fun _ => some [1])
      (([⟨"a", "u", "p"⟩] : List VideoEntry).map QItem.job ++
        QItem.sentinel :: [])).sentinelsConsumed = 1 ∧
    (runWorker (fun _ => ⟨200, some 0, []⟩) (fun s => s) "/w" (fun _ => false) 0
      (fun _ => some [1])
      (([⟨"a", "u", "p"⟩] : List VideoEntry).map QItem.job ++
        QItem.sentinel :: [])).itemsTaken = ([⟨"a", "u", "p"⟩] : List VideoEntry).length + 1 ∧
    (runWorker (fun _ => ⟨200, some 0, []⟩) (fun s => s) "/w" (fun _ => false) 0
      (fun _ => some [1])
      (([⟨"a", "u", "p"⟩] : List VideoEntry).map QItem.job ++
        QItem.sentinel :: [])).finalRunning = false :=
  claim_C5 (fun _ => ⟨200, some 0, []⟩) (fun s => s) "/w" (fun _ => false)
    [⟨"a", "u", "p"⟩] 1 [⟨"a", "u", "p"⟩] [] 0 (fun _ => some [1])
    (fun _ => rfl) (by decide)

/-- The events of `n` consecutive pages starting at `page`, in order. -/
def pagesFrom (srv : Server α) (org : String) (t : EType) (pagesize : Nat) :
    Nat → Nat → List α
  | _, 0 => []
  | page, n + 1 =>
    (srv org page pagesize t).events ++ pagesFrom srv org t pagesize (page + 1) n

/-- `pagesFrom` written as a map over page indices. -/
theorem pagesFrom_eq_range (srv : Server α) (org : String) (t : EType)
    (pagesize : Nat) :
    ∀ (n page : Nat),
    pagesFrom srv org t pagesize page n =
      ((List.range n).map (fun i => (srv org (page + i) pagesize t).events)).flatten := by
  intro n
  induction n with
  | zero => intro page; simp [pagesFrom]
  | succ n ih =>
    intro page
    rw [List.range_succ_eq_map]
    have hmap : (fun i => (srv org (page + (i + 1)) pagesize t).events) =
        (fun i => (srv org (page + 1 + i) pagesize t).events) := by
      funext i
      have : page + (i + 1) = page + 1 + i := by omega
      rw [this]
    simp [pagesFrom, ih (page + 1), List.map_map, Function.comp_def, hmap]

/-- The `while has_next_page` loop of `get_events`, started at any page
at or before the last page and given enough fuel, returns exactly the
concatenation of the pages up to and including the last page. -/
theorem getEventsFrom_pages (srv : Server α) (org : String) (t : EType)
    (pagesize N : Nat) (hlast : isLastPage srv org t pagesize N) :
    ∀ (fuel page : Nat), 1 ≤ page → page ≤ N → N - page < fuel →
    getEventsFrom srv org t pagesize fuel page =
      some (pagesFrom srv org t pagesize page (N + 1 - page)) := by
  intro fuel
  induction fuel with
  | zero => intro page _ _ h3; omega
  | succ fuel ih =>
    intro page h1 h2 h3
    by_cases hend : page = N
    · subst hend
      have h0 : page + 1 - page = 1 := by omega
      simp [getEventsFrom, get_showmore, hlast.1, h0, pagesFrom]
    · have hlt : page < N := lt_of_le_of_ne h2 hend
      have hnext : (srv org page pagesize t).hasNextPage = true :=
        hlast.2 page h1 hlt
      have h0 : N + 1 - page = (N + 1 - (page + 1)) + 1 := by omega
      rw [h0]
      simp [getEventsFrom, get_showmore, hnext,
        ih (page + 1) (by omega) (by omega) (by omega), pagesFrom]

/-- Claim C9 — confirmed.  `get_all_events` returns the "future" event
set followed by the "past" event set, each accumulated page by page from
page 1 (incrementing by 1) up to and including the first page whose
response reports no next page, in the order the pages returned them. -/
theorem claim_C9 {α : Type} (srv : Server α) (org : String)
    (pagesize fuel Nf Np : Nat)
    (hf : isLastPage srv org .future pagesize Nf)
    (hp : isLastPage srv org .past pagesize Np)
    (hNf : 1 ≤ Nf) (hNp : 1 ≤ Np) (hff : Nf ≤ fuel) (hfp : Np ≤ fuel) :
    get_all_events srv org pagesize fuel =
      some (pagesConcat srv org .future pagesize Nf ++
            pagesConcat srv org .past pagesize Np) := by
  have h1 := getEventsFrom_pages srv org .future pagesize Nf hf fuel 1
    le_rfl hNf (by omega)
  have h2 := getEventsFrom_pages srv org .past pagesize Np hp fuel 1
    le_rfl hNp (by omega)
  have conv : ∀ (t : EType) (N : Nat),
      pagesFrom srv org t pagesize 1 (N + 1 - 1) = pagesConcat srv org t pagesize N := by
    intro t N
    rw [pagesFrom_eq_range]
    have hN : N + 1 - 1 = N := by omega
    rw [hN]
    unfold pagesConcat
    have hmap : (fun i => (srv org (1 + i) pagesize t).events) =
        (fun i => (srv org (i + 1) pagesize t).events) := by
      funext i
      rw [Nat.add_comm 1 i]
    rw [hmap]
  rw [conv .future Nf] at h1
  rw [conv .past Np] at h2
  simp [get_all_events, get_future_events, get_past_events, get_events, h1, h2]

/-- Claim C9 — witness: a server whose two pages per event set are
`[1], [2]` (future) and `[11], [12]` (past). -/
theorem claim_C9_witness :
    get_all_events
      (fun _ p _ t =>
        (⟨[p + (match t with | .future => 0 | .past => 10)],
          decide (p < 2)⟩ : ShowmorePage Nat)) "o" 5 2 =
      some (pagesConcat
        (fun _ p _ t =>
          (⟨[p + (match t with | .future => 0 | .past => 10)],
            decide (p < 2)⟩ : ShowmorePage Nat)) "o" .future 5 2 ++
        pagesConcat
        (fun _ p _ t =>
          (⟨[p + (match t with | .future => 0 | .past => 10)],
            decide (p < 2)⟩ : ShowmorePage Nat)) "o" .past 5 2) :=
  claim_C9
    (fun _ p _ t =>
      (⟨[p + (match t with | .future => 0 | .past => 10)],
        decide (p < 2)⟩ : ShowmorePage Nat)) "o" 5 2 2 2
    ⟨by decide, fun k h1 h2 => decide_eq_true h2⟩
    ⟨by decide, fun k h1 h2 => decide_eq_true h2⟩
    (by decide) (by decide) (by decide) (by decide)

/-- Python dict assignment on a fresh key appends the pair. -/
theorem dictInsert_append (d : Dict) (k v : String)
    (h : ∀ p ∈ d, p.1 ≠ k) : dictInsert d k v = d ++ [(k, v)] := by
  have hany : ¬(d.any (fun p => decide (p.1 = k)) = true) := by
    simp only [List.any_eq_true, not_exists]
    intro p
    rw [not_and]
    intro hp hdec
    exact h p hp (of_decide_eq_true hdec)
  simp [dictInsert, hany]

/-- One pass of the field loop appends exactly the pair described by
`requiredFieldValue`, provided the field's id is not already a key. -/
theorem fieldsValuesStep_append (email firstName lastName : String)
    (d : Dict) (f : RegField) (h : ∀ p ∈ d, p.1 ≠ f.id) :
    fieldsValuesStep email firstName lastName d f =
      d ++ (requiredFieldValue email firstName lastName f).toList := by
  unfold fieldsValuesStep requiredFieldValue
  by_cases h1 : f.isRequired
  · by_cases h2 : f.type = "email"
    · simp [h1, h2, dictInsert_append d f.id email h]
    · by_cases h3 : f.type = "firstName"
      · simp [h1, h2, h3, dictInsert_append d f.id firstName h]
      · by_cases h4 : f.type = "lastName"
        · simp [h1, h2, h3, h4, dictInsert_append d f.id lastName h]
        · simp [h1, h2, h3, h4]
  · simp [h1]

/-- The `fields_values` loop, run from any accumulator whose keys avoid
the remaining (duplicate-free) field ids, appends exactly the required
email / firstName / lastName pairs. -/
theorem buildFieldsValues_go (email firstName lastName : String) :
    ∀ (fields : List RegField) (d : Dict),
    (fields.map RegField.id).Nodup →
    (∀ p ∈ d, ∀ f ∈ fields, p.1 ≠ f.id) →
    fields.foldl (fieldsValuesStep email firstName lastName) d =
      d ++ fields.filterMap (requiredFieldValue email firstName lastName) := by
  intro fields
  induction fields with
  | nil => intro d _ _; simp
  | cons f fs ih =>
    intro d hnodup hdisj
    simp only [List.map_cons, List.nodup_cons] at hnodup
    obtain ⟨hfnot, hnodup'⟩ := hnodup
    have hfree : ∀ p ∈ d, p.1 ≠ f.id :=
      fun p hp => hdisj p hp f (List.mem_cons_self f fs)
    rw [List.foldl_cons, fieldsValuesStep_append email firstName lastName d f hfree]
    have hdisj' : ∀ p ∈ d ++ (requiredFieldValue email firstName lastName f).toList,
        ∀ g ∈ fs, p.1 ≠ g.id := by
      intro p hp g hg
      rcases List.mem_append.mp hp with hd | hnew
      · exact hdisj p hd g (List.mem_cons_of_mem f hg)
      · have hkey : p.1 = f.id := by
          cases hreq : requiredFieldValue email firstName lastName f with
          | none => rw [hreq] at hnew; simp at hnew
          | some q =>
            rw [hreq] at hnew
            simp only [Option.toList_some, List.mem_singleton] at hnew
            subst hnew
            unfold requiredFieldValue at hreq
            by_cases h1 : f.isRequired
            · by_cases h2 : f.type = "email"
              · simp [h1, h2] at hreq; rw [← hreq]
              · by_cases h3 : f.type = "firstName"
                · simp [h1, h2, h3] at hreq; rw [← hreq]
                · by_cases h4 : f.type = "lastName"
                  · simp [h1, h2, h3, h4] at hreq; rw [← hreq]
                  · simp [h1, h2, h3, h4] at hreq
            · simp [h1] at hreq
        rw [hkey]
        intro hcontra
        exact hfnot (hcontra ▸ List.mem_map_of_mem RegField.id hg)
    rw [ih (d ++ (requiredFieldValue email firstName lastName f).toList) hnodup' hdisj']
    cases hreq : requiredFieldValue email firstName lastName f <;>
      simp [List.filterMap_cons, hreq]

/-- Claim C10 — confirmed.  `register_webinar` submits, for the first
registration field definition, exactly the pairs described by the
field-type mapping: a field contributes a value if and only if it is
required and its type is `email`, `firstName`, or `lastName`, receiving
respectively the provided email, first name, or last name (field ids
assumed distinct, as Python dict keys). -/
theorem claim_C10 (wd : WebinarData) (email firstName lastName : String)
    (d0 : RegFieldDefinition) (ds : List RegFieldDefinition)
    (hdefs : wd.registrationFieldDefinitions = d0 :: ds)
    (hnodup : (d0.fields.map RegField.id).Nodup) :
    register_webinar wd email firstName lastName =
      some ⟨email, firstName, lastName, d0.id,
        d0.fields.filterMap (requiredFieldValue email firstName lastName),
        "Europe/Rome"⟩ := by
  have hgo := buildFieldsValues_go email firstName lastName d0.fields []
    hnodup (by simp)
  simp [register_webinar, hdefs, buildFieldsValues, hgo]

/-- Claim C10 — witness: a definition with required email, required
first name, optional last name and a required field of another type maps
to exactly the email and first-name pairs. -/
theorem claim_C10_witness :
    register_webinar
      ⟨[⟨"def1", [⟨"f1", "email", true⟩, ⟨"f2", "firstName", true⟩,
        ⟨"f3", "lastName", false⟩, ⟨"f4", "company", true⟩]⟩]⟩
      "e@x" "Gia" "Fe" =
      some ⟨"e@x", "Gia", "Fe", "def1",
        ([⟨"f1", "email", true⟩, ⟨"f2", "firstName", true⟩,
          ⟨"f3", "lastName", false⟩, ⟨"f4", "company", true⟩] :
            List RegField).filterMap (requiredFieldValue "e@x" "Gia" "Fe"),
        "Europe/Rome"⟩ :=
  claim_C10
    ⟨[⟨"def1", [⟨"f1", "email", true⟩, ⟨"f2", "firstName", true⟩,
      ⟨"f3", "lastName", false⟩, ⟨"f4", "company", true⟩]⟩]⟩
    "e@x" "Gia" "Fe"
    ⟨"def1", [⟨"f1", "email", true⟩, ⟨"f2", "firstName", true⟩,
      ⟨"f3", "lastName", false⟩, ⟨"f4", "company", true⟩]⟩ []
    rfl (by decide)
